import Mathlib

/-!
Verification development for the `densho-elastictools` repository
(`elastictools/search.py`, `elastictools/docstore.py`).

The Python source is shallowly embedded: Python `int` becomes `Int`,
Python strings become `List Char` (so that character-level operations such
as `str.replace` are direct), fallible code returns `Except String`
(the error payload names the Python exception), and `None`-able results
become `Option`.  Each definition carries the name of the source symbol
it embeds.
-/

namespace Elastictools

/-! ## Pagination math (`search.py` lines 69-138) -/

/-- Embeds `search.es_offset(pagesize, thispage)` (search.py:69-86):
`page = thispage - 1; if page < 0: page = 0; return pagesize * page`. -/
def es_offset (pagesize thispage : Int) : Int :=
  let page := thispage - 1
  pagesize * (if page < 0 then 0 else page)

/-- Embeds `search.start_stop(limit, offset)` (search.py:88-100):
`start = int(offset); stop = start + int(limit); return start, stop`.
Total on integer arguments. -/
def start_stop (limit offset : Int) : Int × Int :=
  (offset, offset + limit)

/-- Embeds `search.django_page(limit, offset)` (search.py:124-138):
`return divmod(offset, limit)[0] + 1`.  Python `divmod` on ints is floor
division, hence `Int.fdiv`; `divmod(offset, 0)` raises `ZeroDivisionError`,
modelled as `none`. -/
def django_page (limit offset : Int) : Option Int :=
  if limit = 0 then none else some (Int.fdiv offset limit + 1)

/-- Embeds the offset/page resolution fragment of the module-level
`search.search()` function (search.py:730-734):

    if page and offset:
        Exception("Error: Specify either offset OR page, not both.")
    if page:
        thispage = int(page)
        offset = es_offset(limit, thispage)

Note that the `Exception` on the first line is constructed and immediately
discarded: there is no `raise`, so this fragment can never fail, which the
`Except` result type makes explicit.  `page` is an optional argument
(default `None`); `if page:` is Python truthiness, false for `None` and
for `0`. -/
def search_resolve_offset (limit offset : Int) (page : Option Int) :
    Except String Int :=
  Except.ok <| match page with
    | some p => if p = 0 then offset else es_offset limit p
    | none => offset

/-! ## Input sanitization (`search.py` lines 410-440) -/

/-- The characters of the raw Python string `r'!+/:[\]^{}~'`
(search.py:420).  Note the literal backslash between `[` and `]`, and the
braces (written here by code point, 0x7b and 0x7d). -/
def BAD_SEARCH_CHARS : List Char :=
  ['!', '+', '/', ':', '[', '\\', ']', '^', Char.ofNat 0x7b, Char.ofNat 0x7d, '~']

/-- Embeds the removal loop of `search.sanitize_input` (search.py:421-422):
`for c in BAD_SEARCH_CHARS: text = text.replace(c, '')`.  Each
`str.replace(c, '')` deletes every occurrence of the single character `c`. -/
def removeBad (text : List Char) : List Char :=
  BAD_SEARCH_CHARS.foldl (fun acc c => acc.filter (fun x => x ≠ c)) text

/-- Embeds `text.replace('  ', ' ')` (search.py:423): one left-to-right
pass replacing each non-overlapping occurrence of two spaces by one. -/
def collapseDoubleSpaces : List Char → List Char
  | ' ' :: ' ' :: rest => ' ' :: collapseDoubleSpaces rest
  | c :: rest => c :: collapseDoubleSpaces rest
  | [] => []

/-- Splits a character list at newline characters (the segments over which
`.` of an un-flagged Python regex can match). -/
def splitNl : List Char → List (List Char)
  | [] => [[]]
  | '\n' :: rest => [] :: splitNl rest
  | c :: rest =>
    match splitNl rest with
    | s :: ss => (c :: s) :: ss
    | [] => [[c]]

/-- Replaces the last `"` of a newline-free segment by `\"` (if the segment
has one).  This is the effect of one match of
`re.sub(r'(.*)"(.*)', r'\1\"\2', ...)` on that segment: the greedy `(.*)`
puts the matched `"` at the segment's last quote, and the replacement
template `\1\"\2` reinstates the groups around a literal `\"`. -/
def escapeLastQuote : List Char → List Char
  | [] => []
  | '"' :: rest =>
    if '"' ∈ rest then '"' :: escapeLastQuote rest else '\\' :: '"' :: rest
  | c :: rest => c :: escapeLastQuote rest

/-- Embeds `search.sanitize_input` (search.py:410-440) on string input:
remove the characters of `BAD_SEARCH_CHARS`, collapse doubled spaces, and
if the double-quote count is odd run
`re.sub(r'(.*)"(.*)', r'\1\"\2', text)`.  Because `.` does not match a
newline and the pattern requires a literal `"`, that `re.sub` escapes the
last quote of every newline-free segment that contains a quote. -/
def sanitizeStr (text : List Char) : List Char :=
  let t := collapseDoubleSpaces (removeBad text)
  if t.count '"' % 2 = 1 then
    List.intercalate ['\n'] ((splitNl t).map escapeLastQuote)
  else t

/-- A value accepted by `sanitize_input` without raising: the function
returns `bool` input unchanged and asserts `isinstance(text, str)`
otherwise (search.py:416-418). -/
inductive SValue where
  | vstr (s : List Char)
  | vbool (b : Bool)
deriving DecidableEq, Repr

/-- Python truthiness of an `SValue`: the empty string is falsy. -/
def SValue.truthy : SValue → Bool
  | .vstr s => !s.isEmpty
  | .vbool b => b

/-- Embeds `search.sanitize_input` on its full (string-or-bool) domain. -/
def sanitize_input : SValue → SValue
  | .vstr s => .vstr (sanitizeStr s)
  | .vbool b => .vbool b

/-! ## SearchResults (`search.py` lines 165-280) -/

/-- Default page size (`search.py:14`: `DEFAULT_LIMIT = 1000`). -/
def DEFAULT_LIMIT : Int := 1000

/-- A Python value passed as the `limit` or `offset` argument of
`SearchResults.__init__`.  `vint n` stands for any argument that `int()`
converts successfully (an int, or e.g. a numeric string), modelled by its
value; `nonIntable` stands for any argument on which `int()` raises
(`None`, a non-numeric string, a list, ...). -/
inductive PyVal where
  | vint (n : Int)
  | nonIntable (tag : String)
deriving DecidableEq, Repr

/-- Python `int(v)`, `none` when the conversion raises. -/
def pyToInt : PyVal → Option Int
  | .vint n => some n
  | .nonIntable _ => none

/-- Embeds `try: self.limit = int(limit) except: self.limit = DEFAULT_LIMIT`
(search.py:179-182). -/
def sr_limit (limit : PyVal) : Int :=
  (pyToInt limit).getD DEFAULT_LIMIT

/-- Embeds `try: self.offset = int(offset) except: self.offset = 0`
(search.py:183-186). -/
def sr_offset (offset : PyVal) : Int :=
  (pyToInt offset).getD 0

/-- An `elasticsearch_dsl` response as consumed by `SearchResults.__init__`:
the page of hit objects (opaque payloads, type `α`) and
`hits.total.value`.  A `Response` is truthy in Python exactly when its
hit list is non-empty (`Response.__bool__` is `bool(self.hits)`). -/
structure Response (α : Type) where
  hits : List α
  totalValue : Int
deriving DecidableEq, Repr

/-- The fields of a constructed `SearchResults` that the pagination claims
are about (search.py:173-280).  Presentation-only fields (`prev_api`,
`prev_html`, `pad_before`/`pad_after` ranges, ...) are omitted. -/
structure SearchResults (α : Type) where
  objects : List α
  total : Int
  limit : Int
  offset : Int
  prev_offset : Option Int
  next_offset : Option Int
  page_size : Int
  this_page : Int
  page_start : Int
  page_next : Int
deriving DecidableEq, Repr

/-- Embeds `SearchResults.__init__(params, query, count, results, objects,
limit, offset)` (search.py:173-280) for the three construction modes:

* `results` truthy (non-empty hit list): objects are the hits and
  `total = results.hits.total.value` (in an ES7 response `hits.total` is
  always a non-empty attribute dict, so `if results.hits.total:` is true);
* else `objects` non-empty: `total = len(objects)`;
* else: `total = count`.

Then `prev_offset`/`next_offset` are clamped to `None` (search.py:264-269)
and the Django-page fields derived (search.py:272-280).  The
`django_page(self.limit, self.offset)` call divides by `self.limit`, so a
zero limit makes `__init__` raise `ZeroDivisionError`: modelled as
`Except.error`.  `params`/`query` and the aggregation reshaping are not
modelled (no claim touches them). -/
def mkSearchResults {α : Type} (results : Option (Response α))
    (objects : List α) (count : Int) (limit offset : PyVal) :
    Except String (SearchResults α) :=
  let lim := sr_limit limit
  let off := sr_offset offset
  let objstotal : List α × Int :=
    match results with
    | some r =>
      if r.hits.isEmpty then
        if objects.isEmpty then ([], count) else (objects, objects.length)
      else (r.hits, r.totalValue)
    | none =>
      if objects.isEmpty then ([], count) else (objects, objects.length)
  let prev := off - lim
  let next := off + lim
  match django_page lim off with
  | none => .error "ZeroDivisionError"
  | some tp =>
    .ok {
      objects := objstotal.1
      total := objstotal.2
      limit := lim
      offset := off
      prev_offset := if prev < 0 then none else some prev
      next_offset := if next ≥ objstotal.2 then none else some next
      page_size := lim
      this_page := tp
      page_start := (tp - 1) * lim
      page_next := tp * lim
    }

/-! ## Searcher.prepare (`search.py` lines 474-660)

The parameter dict is modelled as an ordered association list (Python
dicts preserve insertion order; keys are unique).  Values are `SValue`
(string or bool): `prepare` passes every value through `sanitize_input`,
which asserts `isinstance(text, str)` for non-bools, so any run that gets
past the sanitizing copy has only string/bool values. -/

/-- An ordered parameter mapping. -/
abbrev Params : Type := List (String × SValue)

/-- Python `params.get(k)` on an ordered dict: first binding wins. -/
def Params.get (p : Params) (k : String) : Option SValue :=
  (List.find? (fun kv => kv.1 = k) p).map (fun kv => kv.2)

/-- Python `params.pop(k)` (the removal part): every binding of `k` is
removed (a dict has at most one). -/
def Params.erase (p : Params) (k : String) : Params :=
  List.filter (fun kv => kv.1 ≠ k) p

/-- Truthiness of `params.get(k)`: `None` (missing key) is falsy. -/
def Params.truthyGet (p : Params) (k : String) : Bool :=
  match p.get k with
  | some v => v.truthy
  | none => false

/-- Python `'%s-*' % parent` string formatting of an `SValue`. -/
def SValue.format : SValue → List Char
  | .vstr s => s
  | .vbool true => String.toList "True"
  | .vbool false => String.toList "False"

/-- One clause of the assembled `elasticsearch_dsl.Search` object.
`nestedTerm path field v` stands for
`Q('bool', must=[Q('nested', path=path, query=Q('term', field=v))])`. -/
inductive Clause where
  | matchAll
  | queryString (v : SValue) (fields : List String)
  | nestedTerm (path field : String) (v : SValue)
  | wildcard (field : String) (v : List Char)
  | term (field : String) (v : SValue)
deriving DecidableEq, Repr

/-- One aggregation bucket request attached via `s.aggs.bucket(...)`.
`nested outer inner path field size` is the two-level form
`bucket(outer, 'nested', path=path).bucket(inner, 'terms', field=field,
size=size)`. -/
inductive Agg where
  | nested (outer inner path field : String) (size : Int)
  | terms (name field : String)
deriving DecidableEq, Repr

/-- The assembled, not-yet-executed search request held on the `Searcher`. -/
structure SearchState where
  indices : List String
  sourceFields : List String
  sortSpec : List String
  queries : List Clause
  filters : List Clause
  aggs : List Agg
deriving DecidableEq, Repr

/-- Embeds the sanitizing copy (search.py:508-513): every value is passed
through `sanitize_input`. -/
def sanitizeParams (params : Params) : Params :=
  params.map (fun kv => (kv.1, sanitize_input kv.2))

/-- Embeds the whitelist scrub (search.py:516-521): drop every key not in
`params_whitelist + ['page']`. -/
def scrubParams (params : Params) (params_whitelist : List String) : Params :=
  params.filter (fun kv => kv.1 ∈ params_whitelist ∨ kv.1 = "page")

/-- Embeds the primary-query `if`/`elif` chain (search.py:539-592):
exactly one of match-all, query-string full text, or a nested exact-match
on `creators`/`persons`/`topics`/`facility`, each popping the parameter it
consumes (`match_all` is tested with `get` and not popped). -/
def afterPrimary (p : Params) (fields : List String) : List Clause × Params :=
  if p.truthyGet "match_all" then
    ([Clause.matchAll], p)
  else if p.truthyGet "fulltext" then
    (((p.get "fulltext").map
        (fun v => [Clause.queryString v fields])).getD [],
     p.erase "fulltext")
  else if p.truthyGet "creators" then
    (((p.get "creators").map
        (fun v => [Clause.nestedTerm "creators" "creators.namepart" v])).getD [],
     p.erase "creators")
  else if p.truthyGet "persons" then
    (((p.get "persons").map
        (fun v => [Clause.nestedTerm "persons" "persons.namepart" v])).getD [],
     p.erase "persons")
  else if p.truthyGet "topics" then
    (((p.get "topics").map
        (fun v => [Clause.nestedTerm "topics" "topics.id" v])).getD [],
     p.erase "topics")
  else if p.truthyGet "facility" then
    (((p.get "facility").map
        (fun v => [Clause.nestedTerm "facility" "facility.id" v])).getD [],
     p.erase "facility")
  else ([], p)

/-- Embeds the `parent` wildcard step (search.py:594-600): when truthy,
`parent` is popped and `s.query("wildcard", id='%s-*' % parent)` added. -/
def afterParent (qp : List Clause × Params) : List Clause × Params :=
  if qp.2.truthyGet "parent" then
    (qp.1 ++
       (((qp.2.get "parent").map
           (fun v => [Clause.wildcard "id" (v.format ++ ['-', '*'])])).getD []),
     qp.2.erase "parent")
  else qp

/-- Embeds the filter loop (search.py:603-637): for each remaining
parameter, a nested-declared field gets a term filter on the denormalized
`<field>_id` key (unconditionally); otherwise a whitelisted truthy value
gets a term filter on the field itself. -/
def filterLoop (p : Params) (params_whitelist fields_nested : List String) :
    List Clause :=
  match p with
  | [] => []
  | (k, v) :: rest =>
    (if k ∈ fields_nested then [Clause.term (k ++ "_id") v]
     else if k ∈ params_whitelist ∧ v.truthy then [Clause.term k v]
     else []) ++
    filterLoop rest params_whitelist fields_nested

/-- Embeds the aggregations loop (search.py:641-658). -/
def buildAggs (fields_agg : List (String × String)) : List Agg :=
  fields_agg.map (fun nf =>
    if nf.1 = "topics" then
      Agg.nested "topics" "topics_ids" "topics" "topics.id" 1000
    else if nf.1 = "facility" then
      Agg.nested "facility" "facility_ids" "facility" "facility.id" 1000
    else Agg.terms nf.1 nf.2)

/-- The parameter mapping as it stands when the filter loop of
`Searcher.prepare` begins: sanitized, scrubbed against the whitelist, and
with the keys consumed by the primary-query and parent steps popped. -/
def remainingParams (params : Params) (params_whitelist : List String)
    (fields : List String) : Params :=
  (afterParent (afterPrimary (scrubParams (sanitizeParams params)
      params_whitelist) fields)).2

/-- The query clauses added by the primary-query and parent steps of
`Searcher.prepare`. -/
def primaryQueries (params : Params) (params_whitelist : List String)
    (fields : List String) : List Clause :=
  (afterParent (afterPrimary (scrubParams (sanitizeParams params)
      params_whitelist) fields)).1

/-- Embeds `Searcher.prepare` (search.py:474-660).  Returns the assembled
request.  `if params.get('models'):` (search.py:524) dereferences the
unbound name `models` on its true branch, raising `NameError`; modelled as
`Except.error`.  The `encycrg` flag adds a `published_rg` term filter
(search.py:497-499, 529-530). -/
def prepare (params : Params) (params_whitelist : List String)
    (search_models : List String) (sort : List String)
    (fields : List String) (fields_nested : List String)
    (fields_agg : List (String × String)) : Except String SearchState :=
  if (scrubParams (sanitizeParams params) params_whitelist).truthyGet
      "models" then
    .error "NameError: name 'models' is not defined"
  else
    .ok {
      indices := search_models
      sourceFields := fields
      sortSpec := sort
      queries := primaryQueries params params_whitelist fields
      filters :=
        (if !((params.map Prod.fst).contains "published_encyc") &&
            (params.map Prod.fst).contains "published_rg" then
           [Clause.term "published_rg" (.vbool true)]
         else []) ++
        filterLoop (remainingParams params params_whitelist fields)
          params_whitelist fields_nested
      aggs := buildAggs fields_agg
    }

/-! ## docstore.search_query and Docstore.search (`docstore.py`) -/

/-- An element of the assembled `must` list: either one of the
caller-supplied clause dicts (opaque payload `α`), or the free-text match
clause `{"match": {"_all": text}}` appended by `search_query`. -/
inductive MustItem (α : Type) where
  | clause (a : α)
  | matchText (text : List Char)
deriving DecidableEq, Repr

/-- The dict returned by `docstore.search_query` (docstore.py:477-539):
`{"query": {"bool": {"must": ..., "should": ..., "must_not": ...}}}`, with
an `"aggregations"` key added only when `aggs` is truthy. -/
structure SQBody (α β : Type) where
  must : List (MustItem α)
  should : List α
  must_not : List α
  aggregations : Option (List (String × β))
deriving DecidableEq, Repr

/-- Embeds `docstore.search_query(text, must, should, mustnot, aggs)`
(docstore.py:477-539).  The body always carries the `"query"` key; `text`
(when truthy) is appended to `must`; `aggs` (when truthy) is attached.
The function has no failure path: it never raises. -/
def search_query {α β : Type} (text : List Char)
    (must should mustnot : List α) (aggs : List (String × β)) :
    SQBody α β :=
  { must := must.map .clause ++ (if text.isEmpty then [] else [.matchText text])
    should := should
    must_not := mustnot
    aggregations := if aggs.isEmpty then none else some aggs }

/-- Embeds the empty-search guard of `Docstore.search` (docstore.py:208-211)
and `Docstore.count` (docstore.py:176-179): `if not query: raise
Exception("Can't do an empty search. ...")`.  The `query` argument is a
dict; `none` stands for a falsy (empty) dict, `some body` for any dict
built by `search_query`, which always has the `"query"` key and is
therefore truthy. -/
def docstore_search_guard {α β : Type} (query : Option (SQBody α β)) :
    Except String Unit :=
  match query with
  | none =>
    .error "Can't do an empty search. Give me something to work with here."
  | some _ => .ok ()

/-! ## JSON values and `json.loads` (used by `docstore.cluster`)

`docstore.cluster` parses its configuration string with the standard
library's `json.loads`.  The JSON data model and parser below are modelled
from the grammar that `json.loads` implements (objects, arrays, strings
with the standard escapes, numbers, `true`/`false`/`null`, whitespace,
the whole input consumed), including the CPython extension that accepts
the constants `NaN`, `Infinity` and `-Infinity` as values by default.
Number tokens (the constants included) are kept as raw text: `cluster`
never uses a number's value, only its (non-)equality with string keys. -/

inductive JValue where
  | null
  | bool (b : Bool)
  | num (raw : String)
  | str (s : String)
  | arr (xs : List JValue)
  | obj (kvs : List (String × JValue))

mutual

/-- Structural equality of JSON values (Python `==` on decoded values). -/
def JValue.beq : JValue → JValue → Bool
  | .null, .null => true
  | .bool a, .bool b => a = b
  | .num a, .num b => a = b
  | .str a, .str b => a = b
  | .arr xs, .arr ys => beqArr xs ys
  | .obj xs, .obj ys => beqObj xs ys
  | _, _ => false

/-- Elementwise `JValue.beq` on lists. -/
def beqArr : List JValue → List JValue → Bool
  | [], [] => true
  | x :: xs, y :: ys => JValue.beq x y && beqArr xs ys
  | _, _ => false

/-- Elementwise `JValue.beq` on key-value lists. -/
def beqObj : List (String × JValue) → List (String × JValue) → Bool
  | [], [] => true
  | x :: xs, y :: ys => x.1 = y.1 && JValue.beq x.2 y.2 && beqObj xs ys
  | _, _ => false

end

/-- JSON insignificant whitespace. -/
def skipWs (cs : List Char) : List Char :=
  cs.dropWhile (fun c => c = ' ' ∨ c = '\t' ∨ c = '\n' ∨ c = '\r')

/-- Value of a hexadecimal digit. -/
def hexDigit (c : Char) : Option Nat :=
  if '0' ≤ c ∧ c ≤ '9' then some (c.toNat - '0'.toNat)
  else if 'a' ≤ c ∧ c ≤ 'f' then some (c.toNat - 'a'.toNat + 10)
  else if 'A' ≤ c ∧ c ≤ 'F' then some (c.toNat - 'A'.toNat + 10)
  else none

/-- Parses the body of a JSON string literal (the opening `"` already
consumed), returning the decoded characters and the remaining input. -/
def parseStrLit : List Char → Option (List Char × List Char)
  | [] => none
  | '"' :: rest => some ([], rest)
  | '\\' :: 'u' :: a :: b :: c :: d :: rest => do
    let ha ← hexDigit a
    let hb ← hexDigit b
    let hc ← hexDigit c
    let hd ← hexDigit d
    let (s, r) ← parseStrLit rest
    some (Char.ofNat (((ha * 16 + hb) * 16 + hc) * 16 + hd) :: s, r)
  | '\\' :: e :: rest => do
    let c ←
      if e = '"' then some '"'
      else if e = '\\' then some '\\'
      else if e = '/' then some '/'
      else if e = 'b' then some (Char.ofNat 0x08)
      else if e = 'f' then some (Char.ofNat 0x0C)
      else if e = 'n' then some '\n'
      else if e = 'r' then some '\r'
      else if e = 't' then some '\t'
      else none
    let (s, r) ← parseStrLit rest
    some (c :: s, r)
  | c :: rest =>
    if c.toNat < 0x20 then none
    else do
      let (s, r) ← parseStrLit rest
      some (c :: s, r)

/-- Parses an optional JSON fraction part. -/
def parseFrac : List Char → Option (List Char × List Char)
  | '.' :: r =>
    let d := r.takeWhile Char.isDigit
    if d.isEmpty then none else some ('.' :: d, r.dropWhile Char.isDigit)
  | cs => some ([], cs)

/-- Parses an optional JSON exponent part. -/
def parseExp : List Char → Option (List Char × List Char)
  | [] => some ([], [])
  | e :: r =>
    if e = 'e' ∨ e = 'E' then
      let sr : List Char × List Char :=
        match r with
        | '+' :: rr => (['+'], rr)
        | '-' :: rr => (['-'], rr)
        | _ => ([], r)
      let d := sr.2.takeWhile Char.isDigit
      if d.isEmpty then none
      else some (e :: sr.1 ++ d, sr.2.dropWhile Char.isDigit)
    else some ([], e :: r)

/-- Parses a JSON number token (kept raw). -/
def parseNum (cs : List Char) : Option (List Char × List Char) := do
  let sc : List Char × List Char :=
    match cs with
    | '-' :: r => (['-'], r)
    | _ => ([], cs)
  let ip := sc.2.takeWhile Char.isDigit
  let r1 := sc.2.dropWhile Char.isDigit
  if ip.isEmpty then none
  else if 1 < ip.length ∧ ip.head? = some '0' then none
  else do
    let (fp, r2) ← parseFrac r1
    let (ep, r3) ← parseExp r2
    some (sc.1 ++ ip ++ fp ++ ep, r3)

mutual

/-- Parses one JSON value, returning it and the remaining input.  Fueled;
every recursive call consumes at least one input character, so
`2 * length + 2` fuel at top level always suffices.  Besides the standard
literals, CPython's `json.loads` accepts `NaN`, `Infinity` and
`-Infinity` by default (it matches these constants before trying a
number); they are kept as raw number tokens. -/
def parseVal : Nat → List Char → Option (JValue × List Char)
  | 0, _ => none
  | fuel + 1, cs =>
    match skipWs cs with
    | 'n' :: 'u' :: 'l' :: 'l' :: r => some (.null, r)
    | 't' :: 'r' :: 'u' :: 'e' :: r => some (.bool true, r)
    | 'f' :: 'a' :: 'l' :: 's' :: 'e' :: r => some (.bool false, r)
    | 'N' :: 'a' :: 'N' :: r => some (.num "NaN", r)
    | 'I' :: 'n' :: 'f' :: 'i' :: 'n' :: 'i' :: 't' :: 'y' :: r =>
      some (.num "Infinity", r)
    | '-' :: 'I' :: 'n' :: 'f' :: 'i' :: 'n' :: 'i' :: 't' :: 'y' :: r =>
      some (.num "-Infinity", r)
    | '"' :: r => (parseStrLit r).map (fun p => (.str (String.mk p.1), p.2))
    | '[' :: r => parseArr fuel r
    | c :: r =>
      if c = Char.ofNat 0x7b then parseObj fuel r
      else (parseNum (c :: r)).map (fun p => (.num (String.mk p.1), p.2))
    | [] => none

/-- Parses the contents of a JSON array (the `[` already consumed). -/
def parseArr : Nat → List Char → Option (JValue × List Char)
  | 0, _ => none
  | fuel + 1, cs =>
    match skipWs cs with
    | ']' :: r => some (.arr [], r)
    | cs' => do
      let (v, r1) ← parseVal fuel cs'
      let (vs, r2) ← parseArrRest fuel r1
      some (.arr (v :: vs), r2)

/-- Parses `, value` repetitions up to the closing `]`. -/
def parseArrRest : Nat → List Char → Option (List JValue × List Char)
  | 0, _ => none
  | fuel + 1, cs =>
    match skipWs cs with
    | ',' :: r => do
      let (v, r1) ← parseVal fuel r
      let (vs, r2) ← parseArrRest fuel r1
      some (v :: vs, r2)
    | ']' :: r => some ([], r)
    | _ => none

/-- Parses one `"key": value` object member. -/
def parseMember : Nat → List Char → Option ((String × JValue) × List Char)
  | 0, _ => none
  | fuel + 1, cs =>
    match skipWs cs with
    | '"' :: r => do
      let (k, r1) ← parseStrLit r
      match skipWs r1 with
      | ':' :: r2 => do
        let (v, r3) ← parseVal fuel r2
        some ((String.mk k, v), r3)
      | _ => none
    | _ => none

/-- Parses the contents of a JSON object (the opening brace consumed). -/
def parseObj : Nat → List Char → Option (JValue × List Char)
  | 0, _ => none
  | fuel + 1, cs =>
    match skipWs cs with
    | [] => none
    | c :: r =>
      if c = Char.ofNat 0x7d then some (.obj [], r)
      else do
        let (kv, r1) ← parseMember fuel (c :: r)
        let (ms, r2) ← parseObjRest fuel r1
        some (.obj (kv :: ms), r2)

/-- Parses `, "key": value` repetitions up to the closing brace. -/
def parseObjRest : Nat → List Char → Option (List (String × JValue) × List Char)
  | 0, _ => none
  | fuel + 1, cs =>
    match skipWs cs with
    | ',' :: r => do
      let (kv, r1) ← parseMember fuel r
      let (ms, r2) ← parseObjRest fuel r1
      some (kv :: ms, r2)
    | c :: _r =>
      if c = Char.ofNat 0x7d then some ([], (skipWs cs).tail)
      else none
    | [] => none

end

/-- Models `json.loads(s)`: parse one value, require the whole input to be
consumed; `none` when `json.loads` raises `JSONDecodeError`. -/
def json_loads (s : String) : Option JValue :=
  match parseVal (2 * s.toList.length + 2) s.toList with
  | some (v, rest) => if (skipWs rest).isEmpty then some v else none
  | none => none

/-! ## docstore.cluster (`docstore.py` lines 571-591) -/

/-- The `clusters` argument of `docstore.cluster`: either a configuration
string (to be JSON-decoded) or an already-structured Python value. -/
inductive ClustersArg where
  | ofStr (s : String)
  | ofVal (v : JValue)

/-- Whether a Python value may be used as a dict key (`_clusters_by_ip[ip]`
raises `TypeError` on unhashable values, i.e. lists and dicts). -/
def jvalHashable : JValue → Bool
  | .arr _ => false
  | .obj _ => false
  | _ => true

/-- Python iteration `for ip in ips`: lists yield elements, strings yield
one-character strings, dicts yield their keys; anything else raises
`TypeError`. -/
def iterIps : JValue → Except String (List JValue)
  | .arr xs => .ok xs
  | .str s => .ok (s.toList.map (fun c => .str (String.mk [c])))
  | .obj kvs => .ok (kvs.map (fun kv => .str kv.1))
  | _ => .error "TypeError: object is not iterable"

/-- Python dict assignment `m[k] = v`: overwrite an existing binding,
otherwise append. -/
def byIpInsert (m : List (JValue × String)) (k : JValue) (v : String) :
    List (JValue × String) :=
  if m.any (fun kv => JValue.beq kv.1 k) then
    m.map (fun kv => if JValue.beq kv.1 k then (k, v) else kv)
  else m ++ [(k, v)]

/-- Python `s.split(':')[0]`: the prefix before the first colon. -/
def pySplitColonHead (s : String) : String :=
  String.mk (s.toList.takeWhile (fun c => c ≠ ':'))

/-- Embeds the body of `docstore.cluster` after the string branch
(docstore.py:584-591): `assert isinstance(clusters, dict)` (raises
`AssertionError` on any non-dict), build `_clusters_by_ip`, and look up
the host's address, defaulting to `'unknown'`. -/
def clusterResolve (v : JValue) (ipaddr_port : String) : Except String String :=
  match v with
  | .obj kvs => do
    let m ← kvs.foldlM
      (fun m nameIps => do
        let ips ← iterIps nameIps.2
        ips.foldlM
          (fun m ip =>
            if jvalHashable ip then pure (byIpInsert m ip nameIps.1)
            else Except.error "TypeError: unhashable type")
          m)
      ([] : List (JValue × String))
    let ipaddr := pySplitColonHead ipaddr_port
    .ok (((m.find? (fun kv => JValue.beq kv.1 (JValue.str ipaddr))).map
            Prod.snd).getD "unknown")
  | _ => .error "AssertionError: clusters is not a dict"

/-- Embeds `docstore.cluster(clusters, ipaddr_port)` (docstore.py:571-591).
A string argument is checked for emptiness, then JSON-decoded with
`JSONDecodeError` caught and reported as a descriptive string; any other
decoding outcome falls through to `clusterResolve`. -/
def cluster : ClustersArg → String → Except String String
  | .ofStr s, ip =>
    if s = "" then .ok "docstore_clusters is empty"
    else
      match json_loads s with
      | none => .ok "JSONDecodeError on docstore_clusters"
      | some v => clusterResolve v ip
  | .ofVal v, ip => clusterResolve v ip

/-! ## Helper lemmas -/

/-- Sequentially deleting each character of `cs` equals one filter against
membership in `cs`. -/
theorem foldl_filter_eq (cs : List Char) (t : List Char) :
    cs.foldl (fun acc c => acc.filter (fun x => x ≠ c)) t
      = t.filter (fun x => x ∉ cs) := by
  induction cs generalizing t with
  | nil => simp
  | cons c cs ih =>
    simp only [List.foldl_cons, ih, List.filter_filter]
    apply List.filter_congr
    intro a _
    by_cases h1 : a = c <;> by_cases h2 : a ∈ cs <;> simp [h1, h2]

/-- The removal loop of `sanitize_input` as a single filter. -/
theorem removeBad_eq_filter (t : List Char) :
    removeBad t = t.filter (fun x => x ∉ BAD_SEARCH_CHARS) :=
  foldl_filter_eq BAD_SEARCH_CHARS t

/-- Reduction of `collapseDoubleSpaces` on a cons that is not a double
space. -/
theorem collapseDoubleSpaces_cons (a : Char) (rest : List Char)
    (hne : ∀ rest', a = ' ' → rest = ' ' :: rest' → False) :
    collapseDoubleSpaces (a :: rest) = a :: collapseDoubleSpaces rest := by
  rw [collapseDoubleSpaces.eq_def]
  split
  · rename_i rest' heq
    injection heq with h1 h2
    exact (hne rest' h1 h2).elim
  · rename_i b rest2 _hne2 heq
    injection heq with h1 h2
    rw [h1, h2]
  · rename_i heq
    cases heq

/-- Collapsing doubled spaces only drops characters. -/
theorem mem_collapseDoubleSpaces (c : Char) (l : List Char) :
    c ∈ collapseDoubleSpaces l → c ∈ l := by
  induction l using collapseDoubleSpaces.induct with
  | case1 rest ih =>
    intro h
    rw [show collapseDoubleSpaces (' ' :: ' ' :: rest)
          = ' ' :: collapseDoubleSpaces rest from rfl] at h
    rcases List.mem_cons.1 h with h | h
    · simp [h]
    · simp [ih h]
  | case2 a rest hne ih =>
    intro h
    rw [collapseDoubleSpaces_cons a rest hne] at h
    rcases List.mem_cons.1 h with h | h
    · simp [h]
    · simp [ih h]
  | case3 =>
    intro h
    simp [collapseDoubleSpaces] at h

/-- Collapsing doubled spaces drops only spaces, so the count of any other
character is preserved. -/
theorem count_collapseDoubleSpaces (c : Char) (hc : c ≠ ' ') (l : List Char) :
    (collapseDoubleSpaces l).count c = l.count c := by
  induction l using collapseDoubleSpaces.induct with
  | case1 rest ih =>
    rw [show collapseDoubleSpaces (' ' :: ' ' :: rest)
          = ' ' :: collapseDoubleSpaces rest from rfl]
    simp [List.count_cons, ih, hc]
  | case2 a rest hne ih =>
    rw [collapseDoubleSpaces_cons a rest hne]
    simp [List.count_cons, ih]
  | case3 => rfl

/-- Removing the bad-character set preserves the double-quote count (the
quote is not in the set). -/
theorem count_quote_removeBad (t : List Char) :
    (removeBad t).count '"' = t.count '"' := by
  rw [removeBad_eq_filter]
  exact List.count_filter (by decide)

/-! ## Specification-side definitions for the sanitizer

These definitions follow the words of the specification (spec.md §4.3 and
§8), to be compared with `sanitizeStr`, which was translated from the
source.  `specRemovedChars` is the documented removal set `!+/:[]^{}~`
(ten characters, no backslash). -/

/-- The documented removal set of spec.md §4.3: `!+/:[]^{}~`. -/
def specRemovedChars : List Char :=
  ['!', '+', '/', ':', '[', ']', '^', Char.ofNat 0x7b, Char.ofNat 0x7d, '~']

/-- Spec wording: doubled spaces are collapsed (each pair of adjacent
spaces becomes one, in one left-to-right pass). -/
def specCollapse : List Char → List Char
  | ' ' :: ' ' :: rest => ' ' :: specCollapse rest
  | c :: rest => c :: specCollapse rest
  | [] => []

/-- Spec wording: the final (trailing) double quote is escaped with a
backslash. -/
def specEscapeLast : List Char → List Char
  | [] => []
  | '"' :: rest =>
    if '"' ∈ rest then '"' :: specEscapeLast rest else '\\' :: '"' :: rest
  | c :: rest => c :: specEscapeLast rest

/-- The lines (newline-separated segments) of a text. -/
def specSplitLines : List Char → List (List Char)
  | [] => [[]]
  | '\n' :: rest => [] :: specSplitLines rest
  | c :: rest =>
    match specSplitLines rest with
    | s :: ss => (c :: s) :: ss
    | [] => [[c]]

/-- The sanitizer as claim C6 words it: remove every occurrence of the ten
documented characters, collapse doubled spaces, and if the double-quote
count is odd escape the final (trailing) quote of the text. -/
def sanitizeSpecC6 (text : List Char) : List Char :=
  let t := specCollapse (text.filter (fun c => c ∉ specRemovedChars))
  if t.count '"' % 2 = 1 then specEscapeLast t else t

/-- The sanitizer as claim C6 reads after amendment: the removal set also
contains the backslash, and with an odd double-quote count the last quote
of every newline-free line that contains one is escaped (for a text
without newlines: the final quote). -/
def sanitizeSpecC6Amended (text : List Char) : List Char :=
  let t := specCollapse (text.filter (fun c => c ∉ specRemovedChars ++ ['\\']))
  if t.count '"' % 2 = 1 then
    List.intercalate ['\n'] ((specSplitLines t).map specEscapeLast)
  else t

/-- Reduction of `specCollapse` on a cons that is not a double space. -/
theorem specCollapse_cons (a : Char) (rest : List Char)
    (hne : ∀ rest', a = ' ' → rest = ' ' :: rest' → False) :
    specCollapse (a :: rest) = a :: specCollapse rest := by
  rw [specCollapse.eq_def]
  split
  · rename_i rest' heq
    injection heq with h1 h2
    exact (hne rest' h1 h2).elim
  · rename_i b rest2 _hne2 heq
    injection heq with h1 h2
    rw [h1, h2]
  · rename_i heq
    cases heq

/-- The spec-side space collapsing agrees with the source-side one. -/
theorem specCollapse_eq (l : List Char) :
    specCollapse l = collapseDoubleSpaces l := by
  induction l using collapseDoubleSpaces.induct with
  | case1 rest ih =>
    rw [show collapseDoubleSpaces (' ' :: ' ' :: rest)
          = ' ' :: collapseDoubleSpaces rest from rfl,
        show specCollapse (' ' :: ' ' :: rest)
          = ' ' :: specCollapse rest from rfl, ih]
  | case2 a rest hne ih =>
    rw [collapseDoubleSpaces_cons a rest hne, specCollapse_cons a rest hne, ih]
  | case3 => rfl

/-- Reduction of `escapeLastQuote` on a cons that is not a quote. -/
theorem escapeLastQuote_cons (c : Char) (rest : List Char) (hne : c ≠ '"') :
    escapeLastQuote (c :: rest) = c :: escapeLastQuote rest := by
  rw [escapeLastQuote.eq_def]
  split
  · rename_i heq
    cases heq
  · rename_i rest2 heq
    injection heq with h1 h2
    exact (hne h1).elim
  · rename_i c2 rest2 _hne2 heq
    injection heq with h1 h2
    rw [h1, h2]

/-- Reduction of `specEscapeLast` on a cons that is not a quote. -/
theorem specEscapeLast_cons (c : Char) (rest : List Char) (hne : c ≠ '"') :
    specEscapeLast (c :: rest) = c :: specEscapeLast rest := by
  rw [specEscapeLast.eq_def]
  split
  · rename_i heq
    cases heq
  · rename_i rest2 heq
    injection heq with h1 h2
    exact (hne h1).elim
  · rename_i c2 rest2 _hne2 heq
    injection heq with h1 h2
    rw [h1, h2]

/-- The spec-side final-quote escaping agrees with the source-side one. -/
theorem specEscapeLast_eq (l : List Char) :
    specEscapeLast l = escapeLastQuote l := by
  induction l using escapeLastQuote.induct with
  | case1 => rfl
  | case2 rest hin ih =>
    rw [show escapeLastQuote ('"' :: rest)
          = if '"' ∈ rest then '"' :: escapeLastQuote rest
            else '\\' :: '"' :: rest from rfl,
        show specEscapeLast ('"' :: rest)
          = if '"' ∈ rest then '"' :: specEscapeLast rest
            else '\\' :: '"' :: rest from rfl, ih]
  | case3 rest hnin =>
    rw [show escapeLastQuote ('"' :: rest)
          = if '"' ∈ rest then '"' :: escapeLastQuote rest
            else '\\' :: '"' :: rest from rfl,
        show specEscapeLast ('"' :: rest)
          = if '"' ∈ rest then '"' :: specEscapeLast rest
            else '\\' :: '"' :: rest from rfl,
        if_neg hnin, if_neg hnin]
  | case4 c rest hne ih =>
    rw [escapeLastQuote_cons c rest (fun h => hne h),
        specEscapeLast_cons c rest (fun h => hne h), ih]

/-- Reduction of `splitNl` on a cons that is not a newline. -/
theorem splitNl_cons (c : Char) (rest : List Char) (hne : c ≠ '\n') :
    splitNl (c :: rest)
      = match splitNl rest with
        | s :: ss => (c :: s) :: ss
        | [] => [[c]] := by
  rw [splitNl.eq_def]
  split
  · rename_i heq
    cases heq
  · rename_i rest2 heq
    injection heq with h1 h2
    exact (hne h1).elim
  · rename_i c2 rest2 _hne2 heq
    injection heq with h1 h2
    rw [h1, h2]

/-- Reduction of `specSplitLines` on a cons that is not a newline. -/
theorem specSplitLines_cons (c : Char) (rest : List Char) (hne : c ≠ '\n') :
    specSplitLines (c :: rest)
      = match specSplitLines rest with
        | s :: ss => (c :: s) :: ss
        | [] => [[c]] := by
  rw [specSplitLines.eq_def]
  split
  · rename_i heq
    cases heq
  · rename_i rest2 heq
    injection heq with h1 h2
    exact (hne h1).elim
  · rename_i c2 rest2 _hne2 heq
    injection heq with h1 h2
    rw [h1, h2]

/-- The spec-side line splitting agrees with the source-side one. -/
theorem specSplitLines_eq (l : List Char) :
    specSplitLines l = splitNl l := by
  induction l using splitNl.induct with
  | case1 => rfl
  | case2 rest ih =>
    rw [show splitNl ('\n' :: rest) = [] :: splitNl rest from rfl,
        show specSplitLines ('\n' :: rest) = [] :: specSplitLines rest from rfl,
        ih]
  | case3 c rest hne s ss heq ih =>
    rw [splitNl_cons c rest (fun h => hne h),
        specSplitLines_cons c rest (fun h => hne h), ih]
  | case4 c rest hne heq ih =>
    rw [splitNl_cons c rest (fun h => hne h),
        specSplitLines_cons c rest (fun h => hne h), ih]

/-- Whether a clause is a nested query on path `k`. -/
def isNestedOn (k : String) : Clause → Bool
  | .nestedTerm path _ _ => path = k
  | _ => false

/-- Membership in an erased parameter list implies membership in the
original and a different key. -/
theorem mem_of_mem_erase {p : Params} {k k' : String} {v : SValue}
    (h : (k, v) ∈ p.erase k') : (k, v) ∈ p ∧ k ≠ k' := by
  unfold Params.erase at h
  have h2 := List.mem_filter.1 h
  simpa using h2

/-- What the filter loop guarantees for each remaining binding. -/
theorem filterLoop_mem (p : Params) (wl fn : List String) (k : String)
    (v : SValue) (hmem : (k, v) ∈ p) (htr : v.truthy = true) :
    (k ∈ fn → Clause.term (k ++ "_id") v ∈ filterLoop p wl fn) ∧
    (k ∉ fn → k ∈ wl → Clause.term k v ∈ filterLoop p wl fn) := by
  induction p with
  | nil => cases hmem
  | cons kv rest ih =>
    rcases List.mem_cons.1 hmem with heq | hmem'
    · constructor
      · intro hn
        rw [show filterLoop (kv :: rest) wl fn
              = (if kv.1 ∈ fn then [Clause.term (kv.1 ++ "_id") kv.2]
                 else if kv.1 ∈ wl ∧ kv.2.truthy then [Clause.term kv.1 kv.2]
                 else []) ++ filterLoop rest wl fn from by
              rw [filterLoop.eq_def]]
        rw [← heq]
        simp [hn]
      · intro hn hw
        rw [show filterLoop (kv :: rest) wl fn
              = (if kv.1 ∈ fn then [Clause.term (kv.1 ++ "_id") kv.2]
                 else if kv.1 ∈ wl ∧ kv.2.truthy then [Clause.term kv.1 kv.2]
                 else []) ++ filterLoop rest wl fn from by
              rw [filterLoop.eq_def]]
        rw [← heq]
        simp [hn, hw, htr]
    · have ihm := ih hmem'
      constructor
      · intro hn
        rw [show filterLoop (kv :: rest) wl fn
              = (if kv.1 ∈ fn then [Clause.term (kv.1 ++ "_id") kv.2]
                 else if kv.1 ∈ wl ∧ kv.2.truthy then [Clause.term kv.1 kv.2]
                 else []) ++ filterLoop rest wl fn from by
              rw [filterLoop.eq_def]]
        exact List.mem_append_right _ (ihm.1 hn)
      · intro hn hw
        rw [show filterLoop (kv :: rest) wl fn
              = (if kv.1 ∈ fn then [Clause.term (kv.1 ++ "_id") kv.2]
                 else if kv.1 ∈ wl ∧ kv.2.truthy then [Clause.term kv.1 kv.2]
                 else []) ++ filterLoop rest wl fn from by
              rw [filterLoop.eq_def]]
        exact List.mem_append_right _ (ihm.2 hn hw)

/-- If the primary-query chain produced a nested clause on `path`, then it
also popped `path` from the parameters. -/
theorem afterPrimary_nested (p : Params) (fields : List String) :
    ∀ path f w, Clause.nestedTerm path f w ∈ (afterPrimary p fields).1 →
      (afterPrimary p fields).2 = p.erase path := by
  unfold afterPrimary
  split_ifs <;> intro path f w h
  · simp at h
  · rcases hg : p.get "fulltext" with _ | v0 <;> simp [hg] at h
  · rcases hg : p.get "creators" with _ | v0 <;> simp [hg] at h
    obtain ⟨h1, -, -⟩ := h
    rw [h1]
  · rcases hg : p.get "persons" with _ | v0 <;> simp [hg] at h
    obtain ⟨h1, -, -⟩ := h
    rw [h1]
  · rcases hg : p.get "topics" with _ | v0 <;> simp [hg] at h
    obtain ⟨h1, -, -⟩ := h
    rw [h1]
  · rcases hg : p.get "facility" with _ | v0 <;> simp [hg] at h
    obtain ⟨h1, -, -⟩ := h
    rw [h1]
  · simp at h

/-- The parent step adds no nested clause. -/
theorem afterParent_nested (qp : List Clause × Params) (path f : String)
    (w : SValue) (h : Clause.nestedTerm path f w ∈ (afterParent qp).1) :
    Clause.nestedTerm path f w ∈ qp.1 := by
  unfold afterParent at h
  split_ifs at h
  · rcases hg : qp.2.get "parent" with _ | v0 <;> rw [hg] at h
    · simpa using h
    · rcases List.mem_append.1 h with h | h
      · exact h
      · simp at h
  · exact h

/-- The parent step leaves the parameters unchanged or erases `parent`. -/
theorem afterParent_params (qp : List Clause × Params) :
    (afterParent qp).2 = qp.2 ∨ (afterParent qp).2 = qp.2.erase "parent" := by
  unfold afterParent
  split_ifs
  · right
    rfl
  · left
    rfl

/-! ## Claims -/

/-- Claim C1 (code-bug evidence).  The claim says a call to `search()`
with both a non-empty offset and a page raises a usage-fault exception
before any query is prepared.  In the source (search.py:730-731) the
`Exception` is constructed but never raised: with `limit=10, offset=5,
page=2` the offset/page resolution succeeds and silently replaces the
caller's offset by `es_offset(10, 2) = 10`. -/
theorem search_offset_page_conflict_not_raised :
    search_resolve_offset 10 5 (some 2) = Except.ok 10 := rfl

/-- Claim C2.  For every `pagesize > 0` and `page ≥ 1`, converting the
1-based page to an offset and back is the identity:
`django_page(pagesize, es_offset(pagesize, page)) = page`. -/
theorem django_page_es_offset_roundtrip (pagesize page : Int)
    (hps : 0 < pagesize) (hp : 1 ≤ page) :
    django_page pagesize (es_offset pagesize page) = some page := by
  have hne : pagesize ≠ 0 := by omega
  have h1 : ¬ (page - 1 < 0) := by omega
  simp only [es_offset, django_page, if_neg h1, if_neg hne]
  rw [Int.mul_fdiv_cancel_left _ hne]
  have h2 : page - 1 + 1 = page := by omega
  rw [h2]

/-- Witness for claim C2 at `pagesize = 10`, `page = 3`. -/
theorem django_page_es_offset_roundtrip_witness :
    (0 : Int) < 10 ∧ (1 : Int) ≤ 3 ∧
      django_page 10 (es_offset 10 3) = some 3 :=
  ⟨by norm_num, by norm_num,
   django_page_es_offset_roundtrip 10 3 (by norm_num) (by norm_num)⟩

/-- Claim C3.  For every constructed `SearchResults` (from an engine
response, a plain object list, or a bare count, with integer limit and
offset): `next_offset` is `None` exactly when `offset + limit ≥ total`
and equals `offset + limit` otherwise, and `prev_offset` is `None`
exactly when `offset - limit < 0` and equals `offset - limit` otherwise;
in particular a 0-result construction has `total = 0` and both offsets
`None`, and `offset=20, limit=10, total=25` gives `next_offset = None`,
`prev_offset = 10`. -/
theorem searchResults_prev_next (α : Type) (results : Option (Response α))
    (objects : List α) (count : Int) (lim off : Int) (r : SearchResults α)
    (h : mkSearchResults results objects count (.vint lim) (.vint off)
          = .ok r) :
    ((r.limit = lim ∧ r.offset = off) ∧
     r.next_offset
       = (if off + lim ≥ r.total then none else some (off + lim)) ∧
     r.prev_offset
       = (if off - lim < 0 then none else some (off - lim))) ∧
    (mkSearchResults (α := Unit) (some ⟨[], 0⟩) [] 0 (.vint 1000)
        (.vint 0)).map (fun s => (s.total, s.next_offset, s.prev_offset))
      = .ok (0, none, none) ∧
    (mkSearchResults (α := Unit) none [] 25 (.vint 10) (.vint 20)).map
        (fun s => (s.next_offset, s.prev_offset))
      = .ok (none, some 10) := by
  refine ⟨?_, rfl, rfl⟩
  simp only [mkSearchResults, sr_limit, sr_offset, pyToInt, Option.getD] at h
  rcases hdp : django_page lim off with _ | tp
  · rw [hdp] at h
    cases h
  · rw [hdp] at h
    simp only [Except.ok.injEq] at h
    subst h
    exact ⟨⟨rfl, rfl⟩, rfl, rfl⟩

/-- The `SearchResults` value built with `offset=20, limit=10, total=25`. -/
def c3WitnessValue : SearchResults Unit :=
  ⟨[], 25, 10, 20, some 10, none, 10, 3, 20, 30⟩

/-- Witness for claim C3 at the `offset=20, limit=10, total=25`
construction. -/
theorem searchResults_prev_next_witness :
    mkSearchResults (α := Unit) none [] 25 (.vint 10) (.vint 20)
        = .ok c3WitnessValue ∧
    c3WitnessValue.next_offset
      = (if (20 : Int) + 10 ≥ c3WitnessValue.total then none
         else some (20 + 10)) ∧
    c3WitnessValue.prev_offset
      = (if (20 : Int) - 10 < 0 then none else some (20 - 10)) := by
  have h := searchResults_prev_next Unit none [] 25 10 20 c3WitnessValue rfl
  exact ⟨rfl, h.1.2.1, h.1.2.2⟩

/-- Claim C4 counterexample.  The claim says the three pagination
functions are total with no failure modes for every pair of integer
arguments, but `django_page(0, 0)` divides by zero
(`divmod(offset, limit)` with `limit = 0` raises `ZeroDivisionError`). -/
theorem django_page_zero_limit_fails : django_page 0 0 = none := rfl

/-- Claim C4 as amended.  `es_offset` and `start_stop` are total on all
integer arguments (their embeddings are total functions by construction);
`django_page` returns a value exactly when the limit is nonzero. -/
theorem django_page_total_iff (limit offset : Int) :
    (django_page limit offset).isSome = true ↔ limit ≠ 0 := by
  unfold django_page
  by_cases h : limit = 0 <;> simp [h]

/-- Claim C5 counterexample.  The claim says `search_query` with no text,
no clauses and no aggregations raises a usage fault; in fact it returns a
body with empty bool clauses and no aggregations key, and that body (a
non-empty dict) passes the only empty-search guard in the code, the
`if not query: raise` of `Docstore.search`/`Docstore.count`. -/
theorem search_query_empty_accepted :
    search_query (α := Nat) (β := Nat) [] [] [] [] [] =
      { must := [], should := [], must_not := [], aggregations := none } ∧
    docstore_search_guard
        (some (search_query (α := Nat) (β := Nat) [] [] [] [] [])) =
      .ok () :=
  ⟨rfl, rfl⟩

/-- Claim C5 as amended.  `search_query` never raises: every assembled
body (including the all-empty one) is accepted by the `Docstore.search`
guard, which rejects only a falsy (empty) `query` dict. -/
theorem search_query_never_rejected (γ δ : Type) (text : List Char)
    (must should mustnot : List γ) (aggs : List (String × δ)) :
    docstore_search_guard
        (some (search_query text must should mustnot aggs)) = .ok () ∧
    docstore_search_guard (α := γ) (β := δ) none
      = .error "Can't do an empty search. Give me something to work with here." :=
  ⟨rfl, rfl⟩

/-- Claim C6 counterexample.  The claim describes `sanitize_input` as
removing exactly the characters `!+/:[]^{}~`, collapsing doubled spaces
and escaping the final quote on an odd quote count.  On the input
`\"␤"␤"` (backslash, three quotes on three lines) the function also
removes the backslash and escapes the last quote of every line, so it
disagrees with the claimed description. -/
theorem sanitize_c6_counterexample :
    sanitizeStr ['\\', '"', '\n', '"', '\n', '"']
        = ['\\', '"', '\n', '\\', '"', '\n', '\\', '"'] ∧
    sanitizeSpecC6 ['\\', '"', '\n', '"', '\n', '"']
        = ['\\', '"', '\n', '"', '\n', '\\', '"'] ∧
    sanitizeStr ['\\', '"', '\n', '"', '\n', '"']
        ≠ sanitizeSpecC6 ['\\', '"', '\n', '"', '\n', '"'] := by
  refine ⟨by decide, by decide, by decide⟩

/-- Claim C6 as amended.  For every string input `sanitize_input` removes
every occurrence of `!+/:[]^{}~` and of the backslash, collapses doubled
spaces in one pass, and on an odd double-quote count escapes the last
quote of every newline-free line that contains one (for inputs without a
newline: the final quote); an even count is left unchanged by the
quote-balancing step. -/
theorem sanitizeStr_eq_specAmended (t : List Char) :
    sanitizeStr t = sanitizeSpecC6Amended t := by
  have h1 : specCollapse = collapseDoubleSpaces := funext specCollapse_eq
  have h2 : specSplitLines = splitNl := funext specSplitLines_eq
  have h3 : specEscapeLast = escapeLastQuote := funext specEscapeLast_eq
  have hfil : t.filter (fun x => x ∉ BAD_SEARCH_CHARS)
      = t.filter (fun c => c ∉ specRemovedChars ++ ['\\']) := by
    apply List.filter_congr
    intro a _
    have hperm : a ∈ BAD_SEARCH_CHARS ↔ a ∈ specRemovedChars ++ ['\\'] :=
      List.Perm.mem_iff (by decide)
    simp only [decide_eq_decide]
    exact not_congr hperm
  simp only [sanitizeStr, sanitizeSpecC6Amended, removeBad_eq_filter,
    h1, h2, h3]
  rw [hfil]

/-- Claim C7.  In `Searcher.prepare`, every parameter that survives to the
filter loop with a truthy value gets: a term filter on the denormalized
`<field>_id` key and no nested-query clause when the field is declared
nested, and a term filter on the field itself when it is whitelisted and
not nested. -/
theorem prepare_nested_term_filters (params : Params)
    (wl models sort fields fn : List String)
    (fagg : List (String × String)) (k : String) (v : SValue)
    (st : SearchState)
    (hok : prepare params wl models sort fields fn fagg = .ok st)
    (hmem : (k, v) ∈ remainingParams params wl fields)
    (htr : v.truthy = true) :
    (k ∈ fn →
      Clause.term (k ++ "_id") v ∈ st.filters ∧
      st.queries.all (fun q => !(isNestedOn k q)) = true) ∧
    (k ∉ fn → k ∈ wl → Clause.term k v ∈ st.filters) := by
  unfold prepare at hok
  split at hok
  · cases hok
  · simp only [Except.ok.injEq] at hok
    subst hok
    have hloop := filterLoop_mem (remainingParams params wl fields) wl fn
        k v hmem htr
    have hnonested :
        (primaryQueries params wl fields).all
          (fun q => !(isNestedOn k q)) = true := by
      rw [List.all_eq_true]
      intro q hq
      cases q with
      | matchAll => rfl
      | queryString v0 f0 => rfl
      | wildcard f0 v0 => rfl
      | term f0 v0 => rfl
      | nestedTerm path f0 w0 =>
        suffices hpk : path ≠ k by simp [isNestedOn, hpk]
        intro hpkeq
        subst hpkeq
        have hq1 : Clause.nestedTerm path f0 w0
            ∈ (afterPrimary (scrubParams (sanitizeParams params) wl)
                fields).1 :=
          afterParent_nested _ path f0 w0 hq
        have herased :=
          afterPrimary_nested (scrubParams (sanitizeParams params) wl)
            fields path f0 w0 hq1
        have hmem2 : (path, v)
            ∈ (afterPrimary (scrubParams (sanitizeParams params) wl)
                fields).2 := by
          rcases afterParent_params
              (afterPrimary (scrubParams (sanitizeParams params) wl)
                fields) with hcase | hcase
          · rw [remainingParams, hcase] at hmem
            exact hmem
          · rw [remainingParams, hcase] at hmem
            exact (mem_of_mem_erase hmem).1
        rw [herased] at hmem2
        exact (mem_of_mem_erase hmem2).2 rfl
    constructor
    · intro hn
      refine ⟨List.mem_append_right _ (hloop.1 hn), hnonested⟩
    · intro hn hw
      exact List.mem_append_right _ (hloop.2 hn hw)

/-- The request assembled for the C7 witness call. -/
def c7WitnessState : SearchState :=
  { indices := []
    sourceFields := []
    sortSpec := []
    queries := [Clause.queryString (.vstr ['a']) []]
    filters := [Clause.term "topics_id" (.vstr ['1'])]
    aggs := [] }

/-- Witness for claim C7: `fulltext=a, topics=1` with `topics` declared
nested; the `topics` parameter survives the primary-query step (which
consumed `fulltext`) and produces a `topics_id` term filter and no nested
clause. -/
theorem prepare_nested_term_filters_witness :
    prepare [("fulltext", .vstr ['a']), ("topics", .vstr ['1'])]
        ["fulltext", "topics"] [] [] [] ["topics"] []
      = .ok c7WitnessState ∧
    (("topics" : String) ∈ (["topics"] : List String) →
      Clause.term ("topics" ++ "_id") (.vstr ['1']) ∈ c7WitnessState.filters ∧
      c7WitnessState.queries.all (fun q => !(isNestedOn "topics" q))
        = true) := by
  have h := prepare_nested_term_filters
      [("fulltext", .vstr ['a']), ("topics", .vstr ['1'])]
      ["fulltext", "topics"] [] [] [] ["topics"] [] "topics" (.vstr ['1'])
      c7WitnessState rfl (by decide) rfl
  exact ⟨rfl, h.1⟩

/-- Claim C8 counterexample.  The claim says every malformed
cluster-mapping configuration is reported as a descriptive string; but a
string that parses to a JSON value of the wrong shape (here the array
`[]`) reaches `assert isinstance(clusters, dict)` and raises. -/
theorem cluster_wrong_shape_raises :
    cluster (.ofStr "[]") "192.168.0.19:9200"
      = .error "AssertionError: clusters is not a dict" := rfl

/-- Claim C8 as amended.  An empty configuration string and a string that
is not parsable JSON are reported as descriptive strings without raising;
a configuration of the wrong shape (JSON that is not an object, or object
values that are not iterable) raises instead. -/
theorem cluster_string_errors_reported (s ip : String)
    (hne : s ≠ "") (hp : json_loads s = none) :
    cluster (.ofStr s) ip = .ok "JSONDecodeError on docstore_clusters" ∧
    cluster (.ofStr "") ip = .ok "docstore_clusters is empty" := by
  constructor
  · simp only [cluster, if_neg hne, hp]
  · rfl

/-- Witness for claim C8 (amended) at the unparsable string `[`. -/
theorem cluster_string_errors_reported_witness :
    ("[" : String) ≠ "" ∧ json_loads "[" = none ∧
    cluster (.ofStr "[") "10.0.0.1:9200"
      = .ok "JSONDecodeError on docstore_clusters" ∧
    cluster (.ofStr "") "10.0.0.1:9200"
      = .ok "docstore_clusters is empty" := by
  have h := cluster_string_errors_reported "[" "10.0.0.1:9200"
      (by decide) rfl
  exact ⟨by decide, rfl, h.1, h.2⟩

/-- Claim C9.  The removal loop of `sanitize_input` iterates over the raw
string `r'!+/:[\]^{}~'`, whose characters include a literal backslash, so
every backslash of the input is removed (and, when the quote-balancing
step does not fire, none appears in the output). -/
theorem sanitize_input_removes_backslash :
    '\\' ∈ BAD_SEARCH_CHARS ∧
    (∀ t : List Char, '\\' ∉ removeBad t) ∧
    (∀ t : List Char, t.count '"' % 2 = 0 → '\\' ∉ sanitizeStr t) := by
  have hnb : ∀ t : List Char, '\\' ∉ removeBad t := by
    intro t hmem
    rw [removeBad_eq_filter] at hmem
    have h2 := List.mem_filter.1 hmem
    simp only [decide_eq_true_eq] at h2
    exact h2.2 (by decide)
  refine ⟨by decide, hnb, ?_⟩
  intro t h0 hmem
  have hc : (collapseDoubleSpaces (removeBad t)).count '"' = t.count '"' := by
    rw [count_collapseDoubleSpaces '"' (by decide), count_quote_removeBad]
  have hcond : ¬ ((collapseDoubleSpaces (removeBad t)).count '"' % 2 = 1) := by
    rw [hc]
    omega
  rw [show sanitizeStr t
        = if (collapseDoubleSpaces (removeBad t)).count '"' % 2 = 1 then
            List.intercalate ['\n']
              ((splitNl (collapseDoubleSpaces (removeBad t))).map
                escapeLastQuote)
          else collapseDoubleSpaces (removeBad t) from rfl,
      if_neg hcond] at hmem
  exact hnb t (mem_collapseDoubleSpaces '\\' (removeBad t) hmem)

/-- Witness for claim C9 at the input `a\` (no quotes). -/
theorem sanitize_input_removes_backslash_witness :
    (['a', '\\'] : List Char).count '"' % 2 = 0 ∧
    '\\' ∉ sanitizeStr ['a', '\\'] :=
  ⟨by decide, sanitize_input_removes_backslash.2.2 ['a', '\\'] (by decide)⟩

/-- Claim C10.  The `limit`/`offset` coercions of
`SearchResults.__init__` never let an exception escape: an argument that
`int()` cannot convert yields `limit = DEFAULT_LIMIT` (resp.
`offset = 0`), and with such a limit the construction succeeds. -/
theorem searchResults_coercion_defaults (α : Type)
    (results : Option (Response α)) (objects : List α) (count : Int)
    (l o : PyVal) :
    (pyToInt l = none → sr_limit l = DEFAULT_LIMIT) ∧
    (pyToInt o = none → sr_offset o = 0) ∧
    (pyToInt l = none →
      ∃ r, mkSearchResults results objects count l o = .ok r ∧
        r.limit = DEFAULT_LIMIT ∧ r.offset = sr_offset o) := by
  refine ⟨?_, ?_, ?_⟩
  · intro h
    simp [sr_limit, h]
  · intro h
    simp [sr_offset, h]
  · intro h
    have hl : sr_limit l = DEFAULT_LIMIT := by simp [sr_limit, h]
    have hne : sr_limit l ≠ 0 := by
      rw [hl]
      decide
    have hdp : django_page (sr_limit l) (sr_offset o)
        = some (Int.fdiv (sr_offset o) (sr_limit l) + 1) := by
      unfold django_page
      rw [if_neg hne]
    rcases hmk : mkSearchResults results objects count l o with a | r2
    · exfalso
      simp only [mkSearchResults] at hmk
      rw [hdp] at hmk
      simp at hmk
    · refine ⟨r2, rfl, ?_, ?_⟩
      · simp only [mkSearchResults] at hmk
        rw [hdp] at hmk
        simp only [Except.ok.injEq] at hmk
        subst hmk
        exact hl
      · simp only [mkSearchResults] at hmk
        rw [hdp] at hmk
        simp only [Except.ok.injEq] at hmk
        subst hmk
        rfl


/-- Witness for claim C10 at non-convertible limit and offset arguments. -/
theorem searchResults_coercion_defaults_witness :
    pyToInt (.nonIntable "None") = none ∧
    sr_limit (.nonIntable "None") = DEFAULT_LIMIT ∧
    sr_offset (.nonIntable "None") = 0 ∧
    (mkSearchResults (α := Unit) none [] 0 (.nonIntable "None")
        (.nonIntable "None")).map (fun r => (r.limit, r.offset))
      = .ok (DEFAULT_LIMIT, 0) := by
  have h := searchResults_coercion_defaults Unit none [] 0
      (.nonIntable "None") (.nonIntable "None")
  obtain ⟨r, hr, h1, h2⟩ := h.2.2 rfl
  refine ⟨rfl, h.1 rfl, h.2.1 rfl, ?_⟩
  rw [hr]
  simp only [Except.map, h1, h2]
  rfl

end Elastictools
